import Mathlib

/-!
A verification development for the laplax core: a shallow embedding of
`laplax/curv/hessian.py` and `laplax/eval/utils.py`.

Two complementary levels of embedding are used, matching how the code runs:

* a dynamic-value level (`Tensor`), which models the Python/JAX runtime
  values that flow through the objective composer and the evaluation
  harness (nested arrays of exact rationals, shape errors as `Except`,
  call-depth fuel for the recursive rebinding bugs); and
* a traced level (`Traced`), which models the differentiation-engine
  collaborator exactly as the spec describes it: reverse-mode gradients
  and forward-mode directional derivatives of a traced expression are the
  exact mathematical derivatives, with no finite-difference approximation.

External collaborators (`jax.grad`, `jax.jvp`, `jax.vmap`, `jax.lax.map`,
`jax.lax.l2_loss`, `laplax.util.utils.identity`, the metric functions)
are modelled from the interface contract the spec states for them; the
two source files themselves are embedded definition by definition.
-/

attribute [local semireducible] Rat.mul Rat.add Rat.sub Rat.inv

/-- Dynamic array values: a JAX array is modelled as a nested list of exact
rationals (floating point is modelled exactly; the spec states results up to
rounding). A `scalar` is a rank-0 array; an `array` stacks values along a
leading axis. -/
inductive Tensor where
  | scalar : ℚ → Tensor
  | array : List Tensor → Tensor

mutual
/-- Decidable equality of tensors (Python `==` on nested array values). -/
def Tensor.decEq : (a b : Tensor) → Decidable (a = b)
  | .scalar a, .scalar b =>
    if h : a = b then isTrue (by rw [h])
    else isFalse (fun he => h (by cases he; rfl))
  | .scalar _, .array _ => isFalse (fun he => Tensor.noConfusion he)
  | .array _, .scalar _ => isFalse (fun he => Tensor.noConfusion he)
  | .array xs, .array ys =>
    match Tensor.decEqList xs ys with
    | isTrue h => isTrue (by rw [h])
    | isFalse h => isFalse (fun he => h (by cases he; rfl))

/-- Decidable equality of lists of tensors. -/
def Tensor.decEqList : (xs ys : List Tensor) → Decidable (xs = ys)
  | [], [] => isTrue rfl
  | [], _ :: _ => isFalse (fun he => List.noConfusion he)
  | _ :: _, [] => isFalse (fun he => List.noConfusion he)
  | x :: xs, y :: ys =>
    match Tensor.decEq x y, Tensor.decEqList xs ys with
    | isTrue h1, isTrue h2 => isTrue (by rw [h1, h2])
    | isFalse h1, _ => isFalse (fun he => h1 (by cases he; rfl))
    | _, isFalse h2 => isFalse (fun he => h2 (by cases he; rfl))
end

instance : DecidableEq Tensor := Tensor.decEq

instance {ε α : Type} [DecidableEq ε] [DecidableEq α] : DecidableEq (Except ε α)
  | .error e, .error f => decidable_of_iff (e = f) (by simp)
  | .error _, .ok _ => isFalse (by simp)
  | .ok _, .error _ => isFalse (by simp)
  | .ok a, .ok b => decidable_of_iff (a = b) (by simp)

mutual
/-- Elementwise subtraction `x - y` of two tensors, as used by the loss
branches of `concatenate_model_and_loss_fn`. Mismatched structures fail with
a shape error (broadcasting is not modelled; every claim uses matching
shapes). -/
def tsub : Tensor → Tensor → Except String Tensor
  | .scalar a, .scalar b => .ok (.scalar (a - b))
  | .array xs, .array ys => (tsubList xs ys).map .array
  | _, _ => .error "shape mismatch"

/-- Elementwise subtraction of two stacked lists of tensors. -/
def tsubList : List Tensor → List Tensor → Except String (List Tensor)
  | [], [] => .ok []
  | x :: xs, y :: ys => do
    let h ← tsub x y
    let t ← tsubList xs ys
    .ok (h :: t)
  | _, _ => .error "shape mismatch"
end

mutual
/-- Sum of the squares of all scalar leaves of a tensor. -/
def sumSq : Tensor → ℚ
  | .scalar a => a * a
  | .array xs => sumSqList xs

/-- Sum of the squares of all scalar leaves of a list of tensors. -/
def sumSqList : List Tensor → ℚ
  | [] => 0
  | x :: xs => sumSq x + sumSqList xs
end

mutual
/-- Sum of the absolute values of all scalar leaves of a tensor. -/
def sumAbs : Tensor → ℚ
  | .scalar a => |a|
  | .array xs => sumAbsList xs

/-- Sum of the absolute values of all scalar leaves of a list of tensors. -/
def sumAbsList : List Tensor → ℚ
  | [] => 0
  | x :: xs => sumAbs x + sumAbsList xs
end

mutual
/-- The scalar leaves of a tensor, in depth-first order. -/
def leaves : Tensor → List ℚ
  | .scalar a => [a]
  | .array xs => leavesList xs

/-- The scalar leaves of a list of tensors, in depth-first order. -/
def leavesList : List Tensor → List ℚ
  | [] => []
  | x :: xs => leaves x ++ leavesList xs
end

mutual
/-- Whether a tensor contains at least one scalar leaf (equivalently, it is
not built from empty arrays alone). -/
def hasScalarLeaf : Tensor → Bool
  | .scalar _ => true
  | .array xs => anyScalarLeaf xs

/-- Whether some tensor in the list contains a scalar leaf. -/
def anyScalarLeaf : List Tensor → Bool
  | [] => false
  | x :: xs => hasScalarLeaf x || anyScalarLeaf xs
end

/-- Modelled from the spec: `jax.lax.l2_loss`, the loss primitive of the
differentiation-engine collaborator used by the SQUARED_ERROR branch.  The
spec fixes its meaning: the sum of squared deviations scaled by one half
(an L2 loss), reduced to a scalar objective. -/
def l2_loss (x : Tensor) : Tensor := .scalar ((1 / 2) * sumSq x)

/-- Modelled from the spec: `jax.lax.l1_loss`, the loss primitive used by the
CROSS_ENTROPY branch; per the spec it is an elementwise absolute-deviation
loss, reduced to a scalar objective. -/
def l1_loss (x : Tensor) : Tensor := .scalar (sumAbs x)

/-- Lookup of a key in a Python dict modelled as an association list kept in
insertion order. -/
def dict_get (d : List (String × Tensor)) (k : String) : Option Tensor :=
  (d.find? (fun p => p.1 == k)).map (fun p => p.2)

/-- Python dict update `d ++ k maps to v` as performed by
`results[name] = value` and by a merge that adds one key: an existing key is
overwritten in place, a fresh key is appended, preserving insertion order. -/
def dict_update (d : List (String × Tensor)) (k : String) (v : Tensor) :
    List (String × Tensor) :=
  if d.any (fun p => p.1 == k) then
    d.map (fun p => if p.1 == k then (k, v) else p)
  else d ++ [(k, v)]

/-- The loss enumeration from `laplax.types.LossFn` (the spec names the two
members SQUARED_ERROR and CROSS_ENTROPY; the code spells them MSE and
CROSSENTROPY). -/
inductive LossFn where
  | MSE : LossFn
  | CROSSENTROPY : LossFn
deriving DecidableEq

/-- The dynamic value passed as the `loss_fn` argument: a member of the loss
enumeration, an arbitrary callable `(output, target) to scalar`, Python
`None`, or some other non-callable value such as an unrecognized string. -/
inductive LossValue where
  | enumVal : LossFn → LossValue
  | callable : (Tensor → Tensor → Except String Tensor) → LossValue
  | noneVal : LossValue
  | strVal : String → LossValue

/-- How a loss value prints inside the f-string of the error message
`Unknown loss function: ...` (only the non-enum, non-callable values ever
reach that message). -/
def lossValueStr : LossValue → String
  | .enumVal .MSE => "LossFn.MSE"
  | .enumVal .CROSSENTROPY => "LossFn.CROSSENTROPY"
  | .callable _ => "<function>"
  | .noneVal => "None"
  | .strVal s => s

/-- A model function as the composer receives it: a callable taking
`(params, input)`.  The leading `Nat` is call-depth fuel, the `Option` layer
reports fuel exhaustion (a computation that is still running), and the
`Except` layer reports a raised Python/JAX exception. -/
def ModelFn : Type :=
  Nat → Tensor → Tensor → Option (Except String Tensor)

mutual
/-- Operational semantics of the inner `def model_fn(params, input)` that
`concatenate_model_and_loss_fn` creates when `has_batch=True` (hessian.py
lines 20-23).  The `def` rebinds the local name `model_fn`, so the closure
`jax.vmap(model_fn, in_axes=(None, 0))` in its body maps the new binding
itself over the leading axis of `input`; the caller-supplied model function
has become unreachable and does not occur here.  `jax.vmap` applied along
axis 0 of a rank-0 value raises, which is the `scalar` case. -/
def shadowed_batch_model_fn (fuel : Nat) (params input : Tensor) :
    Option (Except String Tensor) :=
  match fuel with
  | 0 => none
  | fuel + 1 =>
    match input with
    | .scalar _ => some (.error "vmap: cannot map along axis 0 of a rank-0 value")
    | .array rows => (shadowed_batch_rows fuel params rows).map (fun r => r.map .array)

/-- The per-row applications performed by the `jax.vmap` in
`shadowed_batch_model_fn`, collected along the mapped axis; a raised
exception in any row aborts the whole mapped call. -/
def shadowed_batch_rows (fuel : Nat) (params : Tensor) :
    List Tensor → Option (Except String (List Tensor))
  | [] => some (.ok [])
  | r :: rs =>
    match shadowed_batch_model_fn fuel params r with
    | none => none
    | some (.error e) => some (.error e)
    | some (.ok v) =>
      match shadowed_batch_rows fuel params rs with
      | none => none
      | some (.error e) => some (.error e)
      | some (.ok vs) => some (.ok (v :: vs))
end

/-- Embedding of `concatenate_model_and_loss_fn` (hessian.py lines 14-38).
If `has_batch` is true the local name `model_fn` is rebound to the
self-vmapping wrapper (see `shadowed_batch_model_fn`); then the loss
selector is dispatched: `LossFn.MSE` composes `jax.lax.l2_loss` with
`model_fn(input=input, params=params) - target`, `LossFn.CROSSENTROPY`
composes `jax.lax.l1_loss` the same way, a callable receives
`(model_output, target)` directly, and any other value raises
`ValueError(f"Unknown loss function: ...")` at composition time, which the
`Except` at the outer level records: no objective is returned. -/
def concatenate_model_and_loss_fn (model_fn : ModelFn) (loss_fn : LossValue)
    (has_batch : Bool) :
    Except String (Nat → Tensor → Tensor → Tensor → Option (Except String Tensor)) :=
  let model_fn := if has_batch then shadowed_batch_model_fn else model_fn
  match loss_fn with
  | .enumVal .MSE => .ok (fun fuel params input target =>
      (model_fn fuel params input).map (fun r => do
        let out ← r
        let d ← tsub out target
        .ok (l2_loss d)))
  | .enumVal .CROSSENTROPY => .ok (fun fuel params input target =>
      (model_fn fuel params input).map (fun r => do
        let out ← r
        let d ← tsub out target
        .ok (l1_loss d)))
  | .callable f => .ok (fun fuel params input target =>
      (model_fn fuel params input).map (fun r => do
        let out ← r
        f out target))
  | other => .error ("Unknown loss function: " ++ lossValueStr other ++ ".")

/-- Operational semantics of the fallback `def model_fn(params, input, target)`
that `create_hessian_mv_without_data` creates when `loss_fn` is `None`
(hessian.py lines 53-57).  The `def` rebinds the local name `model_fn`, so
the call `model_fn(params, input)` in its body is a call of the new binding
itself.  Python resolves arity dynamically, so the call is modelled on an
argument list: a three-argument call runs the body, which deletes `target`
and calls the same function with two arguments; any other arity raises a
`TypeError`.  The caller-supplied model function has become unreachable and
does not occur here. -/
def fallback_model_fn_call (fuel : Nat) (args : List Tensor) :
    Option (Except String Tensor) :=
  match fuel with
  | 0 => none
  | fuel + 1 =>
    match args with
    | [params, input, _target] => fallback_model_fn_call fuel [params, input]
    | _ => some (.error "TypeError: model_fn() missing 1 required positional argument: target")

/-- The evaluation that the differentiation engine performs when the operator
returned by `create_hessian_mv_without_data(model_fn, params, loss_fn=None)`
is applied (hessian.py lines 59-64): `_hessian_mv` differentiates the closure
`lambda p: model_fn(params=p, input=data["input"], target=data["target"])`,
which evaluates the rebound fallback `model_fn` at three arguments; the
result of that evaluation decides the outcome of the vector product. -/
def noloss_objective_eval (p : Tensor) (data : Tensor × Tensor) (fuel : Nat) :
    Option (Except String Tensor) :=
  fallback_model_fn_call fuel [p, data.1, data.2]

/-- Applying the unlifted model function to each sample along the leading
axis separately and stacking the results: the reference behavior the spec
states for a composed model on a batch. -/
def stacked_apply (m : ModelFn) (fuel : Nat) (p : Tensor) :
    List Tensor → Option (Except String (List Tensor))
  | [] => some (.ok [])
  | r :: rs =>
    match m fuel p r with
    | none => none
    | some (.error e) => some (.error e)
    | some (.ok v) =>
      match stacked_apply m fuel p rs with
      | none => none
      | some (.error e) => some (.error e)
      | some (.ok vs) => some (.ok (v :: vs))

/-- Modelled from the spec: `laplax.util.utils.identity`, the no-op default
post-transform of `evaluate_metrics_on_dataset`. -/
def identity (x : α) : α := x

/-- Splitting a list into consecutive chunks.  A chunk size below one is
clamped to one (`jax.lax.map` rejects nonpositive batch sizes; every claim
uses a positive one). -/
def chunkList (k : Nat) : List α → List (List α)
  | [] => []
  | a :: t => (a :: t).take (max k 1) :: chunkList k ((a :: t).drop (max k 1))
termination_by xs => xs.length
decreasing_by
  simp [List.length_drop]

/-- Modelled from the spec: `jax.lax.map`, the chunked dataset-map operator
of the differentiation-engine collaborator (spec section 6): it applies `f`
sequentially over the leading axis, vectorized within consecutive chunks of
`batch_size` elements (all of them when `batch_size` is `None`), and stacks
the results back along the leading axis, preserving order. -/
def lax_map (f : α → β) (xs : List α) (batch_size : Option Nat) : List β :=
  match batch_size with
  | none => xs.map f
  | some k => ((chunkList k xs).map (fun c => c.map f)).flatten

/-- One record of a dataset: a mapping with the keys `input` and `target`
(`jax.lax.map` over such a structure yields the per-index records). -/
structure DataPoint (I : Type) where
  input : I
  target : Tensor

/-- Embedding of `evaluate_on_dataset` (utils.py lines 106-137): for every
data point, `pred_fn(dp["input"])` merged with the binding of `"target"` to
`dp["target"]`, applied across the dataset with `jax.lax.map` under the
resolved batch size. -/
def evaluate_on_dataset (pred_fn : I → List (String × Tensor))
    (data : List (DataPoint I)) (batch_size : Option Nat) :
    List (List (String × Tensor)) :=
  lax_map (fun dp => dict_update (pred_fn dp.input) "target" dp.target) data batch_size

/-- Embedding of `named_finalize_fn_wrapper` (utils.py lines 24-46): wraps a
function so that calling the wrapper computes `fn(**kwargs)`, stores the
value in `results` under `name`, and passes `aux` through; an exception
raised by `fn` propagates. -/
def named_finalize_fn_wrapper (fn : List (String × Tensor) → Except String Tensor) :
    List (String × Tensor) → α → String → List (String × Tensor) →
      Except String (List (String × Tensor) × α) :=
  fun results aux name kwargs =>
    (fn kwargs).map (fun v => (dict_update results name v, aux))

/-- Embedding of `named_finalize_fns` (utils.py lines 49-75): iterate the
named functions in insertion order, threading `results` and `aux` through
each call and returning the final `results`. -/
def named_finalize_fns
    (fns : List (String × (List (String × Tensor) → α → String → List (String × Tensor) →
      Except String (List (String × Tensor) × α))))
    (results : List (String × Tensor)) (aux : α) (kwargs : List (String × Tensor)) :
    Except String (List (String × Tensor)) :=
  match fns with
  | [] => .ok results
  | (name, func) :: rest => do
    let ra ← func results aux name kwargs
    named_finalize_fns rest ra.1 ra.2 kwargs

/-- Sequencing of the per-point computations inside a `jax.lax.map` whose
body may raise: a raised exception aborts the whole mapped call with that
exception, so no partial stacked result is produced. -/
def exceptSeq : List (Except String α) → Except String (List α)
  | [] => .ok []
  | x :: xs => do
    let v ← x
    let vs ← exceptSeq xs
    .ok (v :: vs)

/-- Embedding of `evaluate_metrics_on_dataset` (utils.py lines 140-186):
every metric is wrapped under `named_finalize_fn_wrapper`; per point the
predictions are merged with the target and all metric steps run via
`named_finalize_fns` starting from an empty `results` dict and `aux = None`;
the per-point computation is applied across the dataset with `jax.lax.map`;
finally `apply` transforms each stacked metric column independently.  The
final dict comprehension iterates the keys of the stacked result, which are
exactly the metric names in insertion order; the `getD` default on a column
entry is unreachable because every per-point `results` dict contains every
metric name. -/
def evaluate_metrics_on_dataset (pred_fn : I → List (String × Tensor))
    (data : List (DataPoint I))
    (metrics : List (String × (List (String × Tensor) → Except String Tensor)))
    (apply : Tensor → Tensor) (batch_size : Option Nat) :
    Except String (List (String × Tensor)) := do
  let wrapped := metrics.map (fun p => (p.1, named_finalize_fn_wrapper (α := Option Unit) p.2))
  let rows ← exceptSeq (lax_map (fun dp =>
    named_finalize_fns wrapped [] (none : Option Unit)
      (dict_update (pred_fn dp.input) "target" dp.target)) data batch_size)
  .ok ((metrics.map (fun p => p.1)).map (fun nm =>
    (nm, apply (Tensor.array (rows.map (fun r => (dict_get r nm).getD (Tensor.scalar 0)))))))

/-- Modelled from the spec: the `squared_error` metric named in the spec's
test properties — a MetricFn over the keyword-bound prediction field `pred`
and the target field `target`, returning the sum of squared deviations; a
missing required keyword raises a `TypeError` naming the metric and the
missing field. -/
def squared_error (kwargs : List (String × Tensor)) : Except String Tensor :=
  match dict_get kwargs "pred", dict_get kwargs "target" with
  | some p, some t => (tsub p t).map (fun d => Tensor.scalar (sumSq d))
  | none, _ => .error "TypeError: squared_error() missing 1 required keyword-only argument: pred"
  | _, none => .error "TypeError: squared_error() missing 1 required keyword-only argument: target"

namespace Traced

/-- A traced scalar computation over `n` differentiable parameter entries:
the expression the differentiation engine sees when it traces a Python
closure of the parameter vector (constants cover everything closed over,
such as the data batch).  Objectives handed to `hvp` must be differentiable
under both modes (spec section 3); their traces are the polynomial
expressions built from these operations. -/
inductive Expr (n : ℕ) where
  | const : ℚ → Expr n
  | var : Fin n → Expr n
  | add : Expr n → Expr n → Expr n
  | mul : Expr n → Expr n → Expr n

/-- Evaluation of a traced expression at a parameter vector. -/
def eval : Expr n → (Fin n → ℚ) → ℚ
  | .const c, _ => c
  | .var i, p => p i
  | .add a b, p => eval a p + eval b p
  | .mul a b, p => eval a p * eval b p

/-- The exact partial derivative of a traced expression with respect to the
k-th parameter entry, as the differentiation engine computes it (spec
section 6: exact derivatives, not finite differences). -/
def pderiv (k : Fin n) : Expr n → Expr n
  | .const _ => .const 0
  | .var i => .const (if i = k then 1 else 0)
  | .add a b => .add (pderiv k a) (pderiv k b)
  | .mul a b => .add (.mul (pderiv k a) b) (.mul a (pderiv k b))

/-- Modelled from the spec: `jax.grad`, the reverse-mode gradient of the
differentiation-engine collaborator — the vector of exact partial
derivatives of a traced scalar expression, evaluated at a point. -/
def grad (func : Expr n) (p : Fin n → ℚ) : Fin n → ℚ :=
  fun i => eval (pderiv i func) p

/-- Modelled from the spec: `jax.jvp`, the forward-mode directional
derivative of the differentiation-engine collaborator, applied to a traced
vector-valued function (given componentwise): the exact derivative of each
component at `primals` along `tangents`. -/
def jvp (F : Fin m → Expr n) (primals tangents : Fin n → ℚ) : Fin m → ℚ :=
  fun i => ∑ j, tangents j * eval (pderiv j (F i)) primals

/-- Embedding of `hvp` (hessian.py lines 10-11):
`jax.jvp(jax.grad(func), (primals,), (tangents,))[1]` — the gradient trace
of `func` (whose i-th component is the traced partial derivative) pushed
forward along `tangents` at `primals`. -/
def hvp (func : Expr n) (primals tangents : Fin n → ℚ) : Fin n → ℚ :=
  jvp (fun i => pderiv i func) primals tangents

/-- Embedding of `create_hessian_mv_without_data` (hessian.py lines 41-66)
on the loss path with a callable loss and `has_batch=False`: the composed
objective is `loss_fn(model_fn(input, params), target)` (the callable branch
of `concatenate_model_and_loss_fn`, which performs no lifting and no
rebinding in this configuration), and the returned `_hessian_mv` maps
`(vector, data)` to the hvp of the closure
`lambda p: model_fn(params=p, input=data["input"], target=data["target"])`
at `params` along `vector`.  The model is represented by its trace over the
parameter entries as a function of the input. -/
def create_hessian_mv_without_data (model_fn : I → Fin m → Expr n)
    (params : Fin n → ℚ) (loss_fn : (Fin m → Expr n) → T → Expr n) :
    (Fin n → ℚ) → I × T → Fin n → ℚ :=
  let model_loss_fn := fun (input : I) (target : T) => loss_fn (model_fn input) target
  fun vector data => hvp (model_loss_fn data.1 data.2) params vector

/-- Finite sum of traced expressions over an index list. -/
def sumE (l : List ι) (f : ι → Expr n) : Expr n :=
  l.foldr (fun i acc => .add (f i) acc) (.const 0)

/-- The traced quadratic loss `(1/2) * (sum over i j of A i j * out i * out j)`
of a vector-valued model output. -/
def quadLoss (A : Fin n → Fin n → ℚ) (out : Fin n → Expr n) : Expr n :=
  sumE (List.finRange n) (fun i =>
    sumE (List.finRange n) (fun j =>
      .mul (.const (A i j / 2)) (.mul (out i) (out j))))

/-- The trace of the quadratic objective `f(p) = (1/2) * (transpose p) A p`. -/
def quadExpr (A : Fin n → Fin n → ℚ) : Expr n :=
  quadLoss A (fun i => .var i)

end Traced

/-- Matrix-vector product `A v` over the parameter space, the reference
value the spec states for the hvp of the quadratic objective. -/
def matVec (A : Fin n → Fin n → ℚ) (v : Fin n → ℚ) : Fin n → ℚ :=
  fun i => ∑ j, A i j * v j

/-- A concrete per-sample model function used in counterexamples: it returns
the sum of the scalar leaves of its input (a scalar for a single sample, so
applying it to a whole batch at once mixes samples). -/
def leaf_sum_model : ModelFn := fun _ _ x => some (.ok (.scalar ((leaves x).sum)))

/-- A concrete dataset of 4 points whose target equals the input, so a
prediction function echoing its input fits every point exactly. -/
def exact_fit_dataset : List (DataPoint Tensor) :=
  [⟨.scalar 1, .scalar 1⟩, ⟨.scalar 2, .scalar 2⟩, ⟨.scalar 3, .scalar 3⟩, ⟨.scalar 4, .scalar 4⟩]

mutual
theorem sumSq_eq_leaves : ∀ t : Tensor, sumSq t = ((leaves t).map (fun a => a * a)).sum
  | .scalar a => by simp [sumSq, leaves]
  | .array xs => by simpa [sumSq, leaves] using sumSqList_eq_leavesList xs

theorem sumSqList_eq_leavesList :
    ∀ xs : List Tensor, sumSqList xs = ((leavesList xs).map (fun a => a * a)).sum
  | [] => by simp [sumSqList, leavesList]
  | x :: xs => by
    simp [sumSqList, leavesList, sumSq_eq_leaves x, sumSqList_eq_leavesList xs]
end

/-- Claim C5: a loss selector that is neither a member of the loss
enumeration nor a callable (an unrecognized string, or Python None) makes
`concatenate_model_and_loss_fn` fail at composition time with the
invalid-loss-specification error identifying the offending value: the
composer itself returns the error, for every model function and batch flag,
so no objective is ever produced and no data batch is ever touched. -/
theorem unknown_loss_rejected_at_composition (m : ModelFn) (has_batch : Bool) (s : String) :
    concatenate_model_and_loss_fn m (.strVal s) has_batch
      = .error ("Unknown loss function: " ++ s ++ ".")
    ∧ concatenate_model_and_loss_fn m .noneVal has_batch
      = .error "Unknown loss function: None." := by
  constructor <;> rfl

/-- Claim C3 (amended): with `has_batch=False`, `concatenate_model_and_loss_fn`
performs no lifting: the composed objective applies `model_fn` directly to
the whole `input`, so its output agrees with invoking the unlifted model on
each sample separately and stacking only for model functions that already
act independently along the leading axis. -/
theorem composition_applies_model_directly (m : ModelFn)
    (f : Tensor → Tensor → Except String Tensor) (fuel : Nat)
    (params input target : Tensor) :
    (concatenate_model_and_loss_fn m (.callable f) false).map
      (fun obj => obj fuel params input target)
    = .ok ((m fuel params input).map (fun r => r.bind (fun out => f out target))) := by
  rfl

/-- Claim C3 counterexample: a per-sample model that sums the scalar leaves
of its input, composed with `has_batch=False` (through a callable loss that
returns the model output), on a batch of two two-element samples returns the
single scalar 10 — the model applied to the whole batch at once — while
applying the unlifted model to each of the two samples separately and
stacking the results returns the array of 3 and 7; the two disagree. -/
theorem unlifted_composition_not_per_sample_cex :
    (concatenate_model_and_loss_fn leaf_sum_model (.callable (fun o _ => .ok o)) false).map
      (fun obj => obj 1 (.scalar 0)
        (.array [.array [.scalar 1, .scalar 2], .array [.scalar 3, .scalar 4]]) (.scalar 0))
      = .ok (some (.ok (.scalar 10)))
    ∧ stacked_apply leaf_sum_model 1 (.scalar 0)
        [.array [.scalar 1, .scalar 2], .array [.scalar 3, .scalar 4]]
      = some (.ok [.scalar 3, .scalar 7])
    ∧ Tensor.scalar 10 ≠ Tensor.array [.scalar 3, .scalar 7] := by
  refine ⟨by decide, by decide, by decide⟩

/-- Claim C4: for the SQUARED_ERROR (MSE) loss selector, the objective
returned by `concatenate_model_and_loss_fn` evaluated at
`(parameters, input, target)` is a scalar equal to one half times the sum of
the squared deviations of the model output minus the target, whenever the
model evaluates and the shapes match. -/
theorem mse_objective_is_half_sum_squared_deviations (m : ModelFn) (fuel : Nat)
    (params input target out diff : Tensor)
    (hm : m fuel params input = some (.ok out)) (hd : tsub out target = .ok diff) :
    (concatenate_model_and_loss_fn m (.enumVal .MSE) false).map
      (fun obj => obj fuel params input target)
    = .ok (some (.ok (.scalar ((1 / 2) * ((leaves diff).map (fun a => a * a)).sum)))) := by
  simp [concatenate_model_and_loss_fn, Except.map, Option.map, bind, Except.bind,
    hm, hd, l2_loss, sumSq_eq_leaves]

/-- Witness for claim C4 at a concrete model, input and target. -/
theorem mse_objective_witness :
    ((fun _ _ x => some (.ok x)) : ModelFn) 1 (.scalar 0) (.array [.scalar 3, .scalar 1])
        = some (.ok (.array [.scalar 3, .scalar 1]))
    ∧ tsub (.array [.scalar 3, .scalar 1]) (.array [.scalar 1, .scalar 1])
        = .ok (.array [.scalar 2, .scalar 0])
    ∧ (concatenate_model_and_loss_fn (fun _ _ x => some (.ok x)) (.enumVal .MSE) false).map
        (fun obj => obj 1 (.scalar 0) (.array [.scalar 3, .scalar 1]) (.array [.scalar 1, .scalar 1]))
      = .ok (some (.ok (.scalar ((1 / 2) *
          ((leaves (.array [.scalar 2, .scalar 0])).map (fun a => a * a)).sum)))) :=
  ⟨by decide, by decide,
    mse_objective_is_half_sum_squared_deviations (fun _ _ x => some (.ok x)) 1
      (.scalar 0) (.array [.scalar 3, .scalar 1]) (.array [.scalar 1, .scalar 1])
      (.array [.scalar 3, .scalar 1]) (.array [.scalar 2, .scalar 0]) (by decide) (by decide)⟩

/-- Claim C10 counterexample: the evaluation forced by applying the HVP
operator returned with `loss_fn=None` terminates at call depth 2 with a
TypeError — refuting that it recurses without bound and never returns. -/
theorem noloss_operator_call_terminates_cex :
    noloss_objective_eval (.scalar 1) (.scalar 2, .scalar 3) 2
      = some (.error "TypeError: model_fn() missing 1 required positional argument: target") := by
  decide

/-- Claim C10 (amended): with `loss_fn=None`, the fallback
`def model_fn(params, input, target)` in `create_hessian_mv_without_data`
rebinds the name `model_fn`, so its body calls itself rather than the
caller-supplied model function; the self-call passes two arguments to the
three-parameter function, so applying the returned HVP operator fails with
an arity TypeError at call depth two rather than recursing without bound,
and no call of the rebound fallback at any depth and any argument list ever
returns a value, so the operator never returns a curvature vector. -/
theorem noloss_fallback_arity_error (fuel : Nat) (p : Tensor) (data : Tensor × Tensor) :
    noloss_objective_eval p data (fuel + 2)
      = some (.error "TypeError: model_fn() missing 1 required positional argument: target")
    ∧ ∀ (fuel2 : Nat) (args : List Tensor) (v : Tensor),
        fallback_model_fn_call fuel2 args ≠ some (.ok v) := by
  constructor
  · rfl
  · intro fuel2
    induction fuel2 with
    | zero => intro args v; simp [fallback_model_fn_call]
    | succ n ih =>
      intro args v
      rcases args with _ | ⟨a, _ | ⟨b, _ | ⟨c, _ | ⟨d, rest⟩⟩⟩⟩ <;>
        simp [fallback_model_fn_call]
      exact ih _ _


theorem shadowed_batch_never_ok : ∀ fuel : Nat,
    (∀ params t, hasScalarLeaf t = true →
      ∀ v, shadowed_batch_model_fn fuel params t ≠ some (.ok v))
    ∧ (∀ params rs, anyScalarLeaf rs = true →
      ∀ vs, shadowed_batch_rows fuel params rs ≠ some (.ok vs)) := by
  intro fuel
  induction fuel with
  | zero =>
    constructor
    · intro params t h v
      simp [shadowed_batch_model_fn]
    · intro params rs h vs
      cases rs with
      | nil => simp [anyScalarLeaf] at h
      | cons r rs' => simp [shadowed_batch_rows, shadowed_batch_model_fn]
  | succ n ih =>
    have hP : ∀ params t, hasScalarLeaf t = true →
        ∀ v, shadowed_batch_model_fn (n + 1) params t ≠ some (.ok v) := by
      intro params t h v
      cases t with
      | scalar a => simp [shadowed_batch_model_fn]
      | array xs =>
        simp only [shadowed_batch_model_fn]
        cases hr : shadowed_batch_rows n params xs with
        | none => simp
        | some e =>
          cases e with
          | error e => simp [Except.map]
          | ok vs => exact absurd hr (ih.2 params xs (by simpa [hasScalarLeaf] using h) vs)
    refine ⟨hP, ?_⟩
    intro params rs h vs
    induction rs generalizing vs with
    | nil => simp [anyScalarLeaf] at h
    | cons r rs' ihr =>
      simp only [anyScalarLeaf, Bool.or_eq_true] at h
      simp only [shadowed_batch_rows]
      cases hm : shadowed_batch_model_fn (n + 1) params r with
      | none => simp
      | some e =>
        cases e with
        | error e => simp
        | ok v =>
          rcases h with h | h
          · exact absurd hm (hP params r h v)
          · cases hr : shadowed_batch_rows (n + 1) params rs' with
            | none => simp
            | some e2 =>
              cases e2 with
              | error e2 => simp
              | ok vs' => exact absurd hr (ihr h vs')

/-- Claim C9 counterexample: with `has_batch=True` and the MSE loss, the
composed objective applied to a rank-1 input of two scalars terminates at
call depth 3 with the vmap rank error — refuting that every invocation
recurses without bound and never terminates. -/
theorem batched_objective_terminates_with_vmap_error_cex :
    (concatenate_model_and_loss_fn leaf_sum_model (.enumVal .MSE) true).map
      (fun obj => obj 3 (.scalar 0) (.array [.scalar 1, .scalar 2]) (.scalar 0))
    = .ok (some (.error "vmap: cannot map along axis 0 of a rank-0 value")) := by
  decide

/-- Claim C9 (amended): with `has_batch=True` the inner
`def model_fn(params, input)` rebinds the name `model_fn`, so the vmapped
body calls the new binding itself and the caller-supplied model function is
unreachable; consequently, for every model function, loss selector, call
depth, and input containing at least one scalar leaf, the returned objective
never produces a value: each self-call strips one axis, and the invocation
is either still running at the given depth or has failed with an error (at a
scalar the vmap raises), never a success. -/
theorem batched_objective_never_returns_model_value (m : ModelFn) (lv : LossValue)
    (fuel : Nat) (params input target : Tensor) (val : Tensor)
    (hleaf : hasScalarLeaf input = true) :
    (concatenate_model_and_loss_fn m lv true).map (fun obj => obj fuel params input target)
      ≠ .ok (some (.ok val)) := by
  have hnot := (shadowed_batch_never_ok fuel).1 params input hleaf
  cases lv with
  | enumVal lf =>
    cases lf with
    | MSE =>
      simp only [concatenate_model_and_loss_fn, Except.map]
      cases hs : shadowed_batch_model_fn fuel params input with
      | none => simp [hs]
      | some e =>
        cases e with
        | error e => simp [hs, bind, Except.bind]
        | ok v => exact absurd hs (hnot v)
    | CROSSENTROPY =>
      simp only [concatenate_model_and_loss_fn, Except.map]
      cases hs : shadowed_batch_model_fn fuel params input with
      | none => simp [hs]
      | some e =>
        cases e with
        | error e => simp [hs, bind, Except.bind]
        | ok v => exact absurd hs (hnot v)
  | callable f =>
    simp only [concatenate_model_and_loss_fn, Except.map]
    cases hs : shadowed_batch_model_fn fuel params input with
    | none => simp [hs]
    | some e =>
      cases e with
      | error e => simp [hs, bind, Except.bind]
      | ok v => exact absurd hs (hnot v)
  | noneVal => simp [concatenate_model_and_loss_fn, Except.map]
  | strVal s => simp [concatenate_model_and_loss_fn, Except.map]

/-- Witness for claim C9's amended theorem at a concrete model, loss and
input. -/
theorem batched_objective_never_returns_model_value_witness :
    hasScalarLeaf (.array [.scalar 1, .scalar 2]) = true
    ∧ (concatenate_model_and_loss_fn leaf_sum_model (.enumVal .MSE) true).map
        (fun obj => obj 3 (.scalar 0) (.array [.scalar 1, .scalar 2]) (.scalar 0))
        ≠ .ok (some (.ok (.scalar 0))) :=
  ⟨by decide, batched_objective_never_returns_model_value leaf_sum_model (.enumVal .MSE) 3
      (.scalar 0) (.array [.scalar 1, .scalar 2]) (.scalar 0) (.scalar 0) (by decide)⟩

/-- Claim C2: the HVP operator is linear in its direction argument: for
every traced objective (with parameters and data batch fixed in the trace)
and all scalars `a, b`, `hvp` applied to the direction `a * v1 + b * v2`
equals `a` times `hvp` at `v1` plus `b` times `hvp` at `v2`, exactly. -/
theorem hvp_linear_in_direction {n : ℕ} (e : Traced.Expr n) (p v1 v2 : Fin n → ℚ)
    (a b : ℚ) :
    Traced.hvp e p (fun j => a * v1 j + b * v2 j)
      = fun i => a * Traced.hvp e p v1 i + b * Traced.hvp e p v2 i := by
  funext i
  simp only [Traced.hvp, Traced.jvp]
  rw [Finset.mul_sum, Finset.mul_sum, ← Finset.sum_add_distrib]
  exact Finset.sum_congr rfl (fun j hj => by ring)


theorem chunkList_flatten (k : Nat) (xs : List α) : (chunkList k xs).flatten = xs := by
  induction xs using chunkList.induct k with
  | case1 => simp [chunkList]
  | case2 a t ih =>
    rw [chunkList]
    simp only [List.flatten_cons, ih]
    exact List.take_append_drop _ _

theorem lax_map_eq_map (f : α → β) (xs : List α) (b : Option Nat) :
    lax_map f xs b = xs.map f := by
  cases b with
  | none => rfl
  | some k =>
    simp only [lax_map]
    rw [← List.map_flatten, chunkList_flatten]

/-- Claim C6: for every prediction function, dataset, and positive batch
size — whether or not it divides the dataset length — `evaluate_on_dataset`
returns a table whose leading length equals the dataset length, whose entry
at index i is `pred_fn` of the input at index i merged with that point's
target, and whose value coincides with the value at every other batch size
(all equal the unbatched map). -/
theorem evaluate_on_dataset_order_and_batch_invariance {I : Type}
    (pred_fn : I → List (String × Tensor)) (data : List (DataPoint I)) (k : Nat) :
    evaluate_on_dataset pred_fn data (some (k + 1))
      = data.map (fun dp => dict_update (pred_fn dp.input) "target" dp.target)
    ∧ evaluate_on_dataset pred_fn data (some (k + 1))
      = evaluate_on_dataset pred_fn data none
    ∧ (evaluate_on_dataset pred_fn data (some (k + 1))).length = data.length := by
  refine ⟨lax_map_eq_map _ _ _, ?_, ?_⟩
  · rw [evaluate_on_dataset, evaluate_on_dataset, lax_map_eq_map, lax_map_eq_map]
  · rw [evaluate_on_dataset, lax_map_eq_map, List.length_map]

/-- Claim C7: `evaluate_metrics_on_dataset` with the metric `squared_error`
registered under the name `mse`, on a dataset of 4 points on which the
prediction function's output field equals each point's target, with the
default identity post-transform, returns a table whose `mse` entry is an
array of 4 zeros, one per dataset point in dataset order. -/
theorem evaluate_metrics_mse_zeros_on_exact_predictions :
    evaluate_metrics_on_dataset (fun x => [("pred", x)]) exact_fit_dataset
      [("mse", squared_error)] identity none
    = .ok [("mse", .array [.scalar 0, .scalar 0, .scalar 0, .scalar 0])] := by
  decide

theorem find_map_override (t : List (String × Tensor)) (k fld : String) (v : Tensor)
    (h : fld ≠ k) :
    (t.map (fun p => if p.1 == k then (k, v) else p)).find? (fun p => p.1 == fld)
      = t.find? (fun p => p.1 == fld) := by
  rw [List.find?_map]
  have hpg : ((fun p => p.1 == fld) ∘ fun p : String × Tensor => if p.1 == k then (k, v) else p)
      = (fun p : String × Tensor => p.1 == fld) := by
    funext q
    by_cases hq : q.1 = k
    · simp [hq, Ne.symm h]
    · simp [hq]
  rw [hpg]
  cases hf : t.find? (fun p => p.1 == fld) with
  | none => rfl
  | some q =>
    have hq := List.find?_some hf
    have hqk : (q.1 == k) = false := by
      have hqe : q.1 = fld := by simpa using hq
      simp [hqe, h]
    simp [Option.map, hqk]

theorem dict_get_update_ne (d : List (String × Tensor)) (k fld : String) (v : Tensor)
    (h : fld ≠ k) :
    dict_get (dict_update d k v) fld = dict_get d fld := by
  unfold dict_update
  by_cases hc : d.any (fun p => p.1 == k)
  · rw [if_pos hc]
    unfold dict_get
    rw [find_map_override d k fld v h]
  · rw [if_neg hc]
    unfold dict_get
    rw [List.find?_append]
    have hkf : (k == fld) = false := by simpa using Ne.symm h
    simp [List.find?, hkf]


theorem named_finalize_fns_error {α : Type}
    (fns : List (String × (List (String × Tensor) → α → String → List (String × Tensor) →
      Except String (List (String × Tensor) × α))))
    (kwargs : List (String × Tensor)) (nm : String)
    (step : List (String × Tensor) → α → String → List (String × Tensor) →
      Except String (List (String × Tensor) × α))
    (hmem : (nm, step) ∈ fns)
    (hfail : ∀ r a, ∃ e, step r a nm kwargs = .error e) :
    ∀ results aux, ∃ e, named_finalize_fns fns results aux kwargs = .error e := by
  induction fns with
  | nil => cases hmem
  | cons hd rest ih =>
    intro results aux
    rcases hd with ⟨nm2, step2⟩
    rcases List.mem_cons.mp hmem with heq | hmem2
    · have h1 : nm2 = nm ∧ step2 = step := by
        constructor
        · exact (congrArg Prod.fst heq).symm
        · exact (congrArg Prod.snd heq).symm
      rcases h1 with ⟨rfl, rfl⟩
      obtain ⟨e, he⟩ := hfail results aux
      exact ⟨e, by simp [named_finalize_fns, he, bind, Except.bind]⟩
    · cases hcall : step2 results aux nm2 kwargs with
      | error e => exact ⟨e, by simp [named_finalize_fns, hcall, bind, Except.bind]⟩
      | ok ra =>
        obtain ⟨e, he⟩ := ih hmem2 ra.1 ra.2
        exact ⟨e, by simp [named_finalize_fns, hcall, he, bind, Except.bind]⟩

/-- Claim C8: a metric requiring a keyword field that the prediction
function never produces (and that is not `target`) makes
`evaluate_metrics_on_dataset` fail: with that metric alone the call returns
exactly the metric's own missing-field error, and whenever such a metric
occurs anywhere among the requested metrics the call returns an error and no
results table containing any metric entry (all-or-nothing failure). -/
theorem missing_prediction_field_aborts {I : Type} :
    (∀ (nm fld e : String) (fn : List (String × Tensor) → Except String Tensor)
        (pred_fn : I → List (String × Tensor)) (data : List (DataPoint I)) (b : Option Nat),
        (∀ kwargs, dict_get kwargs fld = none → fn kwargs = .error e) →
        (∀ x, dict_get (pred_fn x) fld = none) →
        fld ≠ "target" → data ≠ [] →
        evaluate_metrics_on_dataset pred_fn data [(nm, fn)] identity b = .error e)
    ∧ (∀ (nm fld : String) (fn : List (String × Tensor) → Except String Tensor)
        (metrics : List (String × (List (String × Tensor) → Except String Tensor)))
        (pred_fn : I → List (String × Tensor)) (data : List (DataPoint I)) (b : Option Nat),
        (nm, fn) ∈ metrics →
        (∀ kwargs, dict_get kwargs fld = none → ∃ e, fn kwargs = .error e) →
        (∀ x, dict_get (pred_fn x) fld = none) →
        fld ≠ "target" → data ≠ [] →
        (evaluate_metrics_on_dataset pred_fn data metrics identity b).isOk = false) := by
  constructor
  · intro nm fld e fn pred_fn data b hreq hpred hfld hdata
    cases data with
    | nil => exact absurd rfl hdata
    | cons d rest =>
      have hkw : dict_get (dict_update (pred_fn d.input) "target" d.target) fld = none := by
        rw [dict_get_update_ne _ _ _ _ hfld]
        exact hpred d.input
      have hfn := hreq _ hkw
      simp only [evaluate_metrics_on_dataset, lax_map_eq_map, List.map_cons,
        named_finalize_fns, named_finalize_fn_wrapper, hfn, exceptSeq]
      simp [bind, Except.bind, Except.map]
  · intro nm fld fn metrics pred_fn data b hmem hreq hpred hfld hdata
    cases data with
    | nil => exact absurd rfl hdata
    | cons d rest =>
      have hkw : dict_get (dict_update (pred_fn d.input) "target" d.target) fld = none := by
        rw [dict_get_update_ne _ _ _ _ hfld]
        exact hpred d.input
      have hmem2 : (nm, named_finalize_fn_wrapper (α := Option Unit) fn) ∈
          metrics.map (fun p => (p.1, named_finalize_fn_wrapper (α := Option Unit) p.2)) :=
        List.mem_map_of_mem _ hmem
      have hfail : ∀ (r : List (String × Tensor)) (a : Option Unit), ∃ e,
          named_finalize_fn_wrapper (α := Option Unit) fn r a nm
            (dict_update (pred_fn d.input) "target" d.target) = .error e := by
        intro r a
        obtain ⟨e, he⟩ := hreq _ hkw
        exact ⟨e, by simp [named_finalize_fn_wrapper, he, Except.map]⟩
      obtain ⟨e, he⟩ := named_finalize_fns_error _ _ nm _ hmem2 hfail [] (none : Option Unit)
      simp only [evaluate_metrics_on_dataset, lax_map_eq_map, List.map_cons, he, exceptSeq]
      simp [bind, Except.bind, Except.map, Except.isOk, Except.toBool]

/-- Witness for claim C8: the `squared_error` metric requires the field
`pred`, which the prediction function (producing only `mean`) never emits. -/
theorem missing_prediction_field_aborts_witness :
    evaluate_metrics_on_dataset (fun x : Tensor => [("mean", x)])
        [⟨.scalar 1, .scalar 1⟩] [("mse", squared_error)] identity none
      = .error "TypeError: squared_error() missing 1 required keyword-only argument: pred"
    ∧ (evaluate_metrics_on_dataset (fun x : Tensor => [("mean", x)])
        [⟨.scalar 1, .scalar 1⟩] [("mse", squared_error)] identity none).isOk = false :=
  ⟨missing_prediction_field_aborts.1 "mse" "pred"
      "TypeError: squared_error() missing 1 required keyword-only argument: pred" squared_error _ _ none
      (fun kw h => by simp [squared_error, h])
      (fun x => by simp [dict_get, List.find?])
      (by simp) (by simp),
   missing_prediction_field_aborts.2 "mse" "pred" squared_error _ _ _ none
      (List.mem_singleton.mpr rfl)
      (fun kw h => ⟨"TypeError: squared_error() missing 1 required keyword-only argument: pred",
        by simp [squared_error, h]⟩)
      (fun x => by simp [dict_get, List.find?])
      (by simp) (by simp)⟩


theorem eval_sumE {n : ℕ} {ι : Type} (l : List ι) (f : ι → Traced.Expr n) (p : Fin n → ℚ) :
    Traced.eval (Traced.sumE l f) p = (l.map (fun i => Traced.eval (f i) p)).sum := by
  induction l with
  | nil => simp [Traced.sumE, Traced.eval]
  | cons a t ih =>
    simp only [Traced.sumE, List.foldr_cons, Traced.eval, List.map_cons, List.sum_cons] at ih ⊢
    rw [ih]

theorem pderiv_sumE {n : ℕ} {ι : Type} (k : Fin n) (l : List ι) (f : ι → Traced.Expr n) :
    Traced.pderiv k (Traced.sumE l f) = Traced.sumE l (fun i => Traced.pderiv k (f i)) := by
  induction l with
  | nil => simp [Traced.sumE, Traced.pderiv]
  | cons a t ih =>
    simp only [Traced.sumE, List.foldr_cons, Traced.pderiv] at ih ⊢
    rw [ih]

theorem quad_term_second_deriv {n : ℕ} (c : ℚ) (a b k j : Fin n) (p : Fin n → ℚ) :
    Traced.eval (Traced.pderiv j (Traced.pderiv k
      (Traced.Expr.mul (.const c) (.mul (.var a) (.var b))))) p
    = c * ((if a = k then (1:ℚ) else 0) * (if b = j then 1 else 0)
         + (if a = j then (1:ℚ) else 0) * (if b = k then 1 else 0)) := by
  simp [Traced.pderiv, Traced.eval]

theorem hvp_quadExpr {n : ℕ} (A : Fin n → Fin n → ℚ) (hA : ∀ i j, A i j = A j i)
    (p v : Fin n → ℚ) : Traced.hvp (Traced.quadExpr A) p v = matVec A v := by
  funext k
  have h2 : ∀ j : Fin n,
      Traced.eval (Traced.pderiv j (Traced.pderiv k (Traced.quadExpr A))) p = A k j := by
    intro j
    rw [Traced.quadExpr, Traced.quadLoss]
    simp only [pderiv_sumE, eval_sumE, quad_term_second_deriv]
    simp only [← Fin.sum_univ_def]
    simp only [mul_add, Finset.sum_add_distrib]
    simp only [mul_ite, ite_mul, mul_one, mul_zero, zero_mul, one_mul,
      Finset.sum_ite_eq, Finset.sum_ite_eq', Finset.mem_univ, if_true]
    rw [hA j k]
    ring
  simp only [Traced.hvp, Traced.jvp, h2, matVec]
  exact Finset.sum_congr rfl (fun j hj => mul_comm _ _)

/-- Claim C1: for every symmetric matrix `A` and every direction `v`, the
HVP operator built via `hvp` / `create_hessian_mv_without_data` from the
quadratic objective `f(p) = (1/2) * (transpose p) A p` at any parameter
point returns exactly `A v` — the reverse-mode gradient of `f` pushed
forward along `v`, with no finite-difference approximation. -/
theorem quadratic_hvp_returns_Av {n : ℕ} (A : Fin n → Fin n → ℚ)
    (hA : ∀ i j, A i j = A j i) (p v : Fin n → ℚ) (data : Unit × Unit) :
    Traced.hvp (Traced.quadExpr A) p v = matVec A v
    ∧ Traced.create_hessian_mv_without_data (fun _ : Unit => fun i => Traced.Expr.var i) p
        (fun out _ => Traced.quadLoss A out) v data = matVec A v := by
  have h := hvp_quadExpr A hA p v
  exact ⟨h, h⟩

/-- Witness for claim C1 at the concrete symmetric 2 by 2 matrix with 2 on
the diagonal and 1 off it. -/
theorem quadratic_hvp_witness :
    (∀ i j : Fin 2, (fun i j : Fin 2 => if i = j then (2:ℚ) else 1) i j
        = (fun i j : Fin 2 => if i = j then (2:ℚ) else 1) j i)
    ∧ (Traced.hvp (Traced.quadExpr (fun i j : Fin 2 => if i = j then (2:ℚ) else 1))
          (fun _ => 1) (fun i => (i : ℚ) + 1)
        = matVec (fun i j : Fin 2 => if i = j then (2:ℚ) else 1) (fun i => (i : ℚ) + 1)
      ∧ Traced.create_hessian_mv_without_data (fun _ : Unit => fun i => Traced.Expr.var i)
          (fun _ => 1)
          (fun out _ => Traced.quadLoss (fun i j : Fin 2 => if i = j then (2:ℚ) else 1) out)
          (fun i => (i : ℚ) + 1) ((), ())
        = matVec (fun i j : Fin 2 => if i = j then (2:ℚ) else 1) (fun i => (i : ℚ) + 1)) :=
  ⟨by decide, quadratic_hvp_returns_Av _ (by decide) _ _ ((), ())⟩
